import Mathlib

/-!
Verification development for the Safety-layer repository (multilingual
profanity filter).  The Python sources are shallowly embedded: strings are
lists of characters, Python dicts become association lists, and the
unordered iteration over the Python set of lexicon terms is fixed to the
listing order of the source wordlists.  safety_filter.py is embedded in
the configuration where its guarded better-profanity import is absent.
text_safety_layer.py is not embedded: its _find_profane_words contains an
unterminated string literal, so that module cannot be imported and has no
runtime behaviour.  Of safety_layer_text.py the constructor is embedded.
-/

/-- Python strings are modelled as lists of characters (code points). -/
abbrev Str := List Char

/-- Lowercase a string, as Python str.lower does.  The scripts handled by
the program (Devanagari, Tamil, Telugu) are caseless, so Char.toLower
agrees with Python on every character the lexicons contain. -/
def lowerStr (s : Str) : Str := s.map Char.toLower

/-- Convert a list of string literals to the Str representation. -/
def strList (l : List String) : List Str := l.map String.data

/-- Convert an association list of string literals to Str pairs. -/
def strPairs (l : List (String × String)) : List (Str × Str) :=
  l.map (fun p => (p.1.data, p.2.data))

/-- Python substring test: inStr pat hay is True iff pat occurs
contiguously in hay (the expression pat in hay). -/
def inStr (pat : Str) : Str → Bool
  | [] => pat.isPrefixOf []
  | c :: t => pat.isPrefixOf (c :: t) || inStr pat t

/-- Lookup in an association list, mirroring Python dict.get (None when
the key is absent). -/
def lookupPairs (m : List (Str × Str)) (k : Str) : Option Str :=
  match m.find? (fun p => p.1 == k) with
  | some p => some p.2
  | none => none

/-! ## Lexicon data (safety_filter.py, SafetyFilter) -/

/-- SafetyFilter.SUPPORTED_LANGUAGES (safety_filter.py line 71). -/
def supportedLanguages : List String := ["en", "hi", "ta", "te"]

/-- SafetyFilter._load_highly_abusive_words (safety_filter.py lines
107-139).  The dict lookup with default [] is modelled by an if-chain. -/
def highlyAbusive (lang : String) : List Str :=
  if lang = "en" then strList
    ["fuck", "fucking", "shit", "bitch", "asshole", "bastard",
     "dickhead", "prick", "cock", "pussy", "crap", "damn", "hell",
     "ass", "dumbass"]
  else if lang = "hi" then strList
    ["चूतिया", "chutiya", "मादरचोद", "madarchod",
     "बहनचोद", "behenchod", "भोसडीके", "bhosadike",
     "लौडा", "lauda", "लंड", "lund", "गांडू", "gandu",
     "झाटू", "jhatu", "भोसडा", "bhosda", "रांड", "randi",
     "चुतियापा", "chutiyapa", "बकचोद", "bakchod"]
  else if lang = "ta" then strList
    ["புண்டா", "punda", "ஓத்தா", "otha",
     "ஓம்பு", "ombu", "தேவடியா", "thevidiya",
     "குத்தி", "koothi", "பூல்", "pul"]
  else if lang = "te" then strList
    ["పూకు", "pooku", "లండ", "land",
     "బోడు", "bodu", "కూతురు", "kothuru",
     "పూరి", "poori", "lanjakoduku"]
  else []

/-- SafetyFilter._load_racial_slurs (safety_filter.py lines 141-177). -/
def racialSlurs (lang : String) : List Str :=
  if lang = "en" then strList
    ["stupid", "idiot", "fool", "dumb", "moron",
     "retard", "retarded", "imbecile", "jerk", "loser",
     "scum", "trash", "garbage", "worthless", "pathetic"]
  else if lang = "hi" then strList
    ["बेवकूफ़", "बेवकूफ", "bewakoof", "bewakuf",
     "मूर्ख", "गधा", "gadha", "उल्लू", "ullu",
     "हरामी", "harami", "हरामज़ादा", "haramzada",
     "कमीना", "kamina", "कमीने", "kamine",
     "कुत्ता", "kutta", "कुत्ते", "kutte",
     "सुअर", "suar", "बकवास", "bakwas",
     "गाली", "gaali", "गंदा", "ganda", "ब्लडी फूल", "bloody fool"]
  else if lang = "ta" then strList
    ["முட்டாள்", "muttaal", "பைத்தியம்", "paithiyam",
     "கழுதை", "kazhudhai", "நாய்", "naai",
     "பன்னி", "panni", "பண்ணி",
     "loosu", "porukki", "kirukku"]
  else if lang = "te" then strList
    ["మూర్ఖుడు", "moorkhhudu", "వెధవ", "vedava",
     "గాడిదేడు", "gadidhedu", "గోవు", "govu",
     "కుక్క", "kukka", "పంది", "pandi",
     "ద్రోహి", "drohi", "gadu"]
  else []

/-- SafetyFilter._load_synonyms (safety_filter.py lines 179-260). -/
def synonymsFor (lang : String) : List (Str × Str) :=
  if lang = "en" then strPairs
    [("fuck", "extremely bad"), ("fucking", "very"), ("shit", "nonsense"),
     ("bitch", "difficult person"), ("asshole", "unpleasant person"),
     ("bastard", "difficult person"), ("dickhead", "rude person"),
     ("prick", "annoying person"), ("damn", "darn"), ("hell", "heck"),
     ("crap", "nonsense"), ("ass", "fool"), ("dumbass", "misguided person"),
     ("stupid", "unwise"), ("idiot", "inexperienced person"),
     ("fool", "naive person"), ("dumb", "uninformed"),
     ("moron", "confused person"), ("retard", "challenged person"),
     ("retarded", "developmentally different"), ("imbecile", "uninformed person"),
     ("jerk", "rude person"), ("loser", "unsuccessful person"),
     ("scum", "unpleasant person"), ("trash", "undesirable"),
     ("garbage", "poor quality"), ("worthless", "unvalued"),
     ("pathetic", "unfortunate")]
  else if lang = "hi" then strPairs
    [("चूतिया", "मूर्ख"), ("chutiya", "moorkhh"),
     ("मादरचोद", "अत्यंत बुरा"), ("madarchod", "atyant bura"),
     ("बहनचोद", "अत्यंत बुरा"), ("behenchod", "atyant bura"),
     ("भोसडीके", "बुरा व्यक्ति"), ("bhosadike", "bura vyakti"),
     ("रांड", "बुरी महिला"), ("randi", "buri mahila"),
     ("चुतियापा", "बेकार काम"), ("chutiyapa", "bekaar kaam"),
     ("बकचोद", "बकवास करने वाला"), ("bakchod", "bakwas karne wala"),
     ("बेवकूफ़", "अनजान"), ("बेवकूफ", "अनजान"),
     ("bewakoof", "anjaan"), ("bewakuf", "anjaan"),
     ("मूर्ख", "अज्ञानी"), ("गधा", "नासमझ"), ("gadha", "nasamajh"),
     ("उल्लू", "भोला"), ("ullu", "bhola"),
     ("हरामी", "बुरा व्यक्ति"), ("harami", "bura vyakti"),
     ("हरामज़ादा", "अविश्वासी व्यक्ति"), ("haramzada", "avishvaasi vyakti"),
     ("कमीना", "बुरा व्यक्ति"), ("kamina", "bura vyakti"),
     ("कमीने", "बुरे लोग"), ("kamine", "bure log"),
     ("कुत्ता", "नीच व्यक्ति"), ("kutta", "neech vyakti"),
     ("कुत्ते", "नीच लोग"), ("kutte", "neech log"),
     ("सुअर", "अस्वच्छ व्यक्ति"), ("suar", "asvachh vyakti"),
     ("बकवास", "बेकार बात"), ("bakwas", "bekaar baat"),
     ("गाली", "अपमानजनक शब्द"), ("gaali", "apmaanjanak shabd"),
     ("गंदा", "अशुभ"), ("ganda", "ashubh"),
     ("ब्लडी फूल", "मूर्ख"), ("bloody fool", "moorkhh")]
  else if lang = "ta" then strPairs
    [("புண்டா", "மோசமானவர்"), ("punda", "mosamaanavar"),
     ("ஓத்தா", "மிக மோசம்"), ("otha", "miga mosam"),
     ("ஓம்பு", "மிக மோசம்"), ("ombu", "miga mosam"),
     ("தேவடியா", "கெட்டவர்"), ("thevidiya", "kettavar"),
     ("குத்தி", "கெட்டவர்"), ("koothi", "kettavar"),
     ("பூல்", "மோசம்"), ("pul", "mosam"),
     ("முட்டாள்", "அறியாதவர்"), ("muttaal", "ariyathavar"),
     ("பைத்தியம்", "குழப்பமானவர்"), ("paithiyam", "kuzhhappamanavar"),
     ("கழுதை", "மூடனம்றவர்"), ("kazhudhai", "mudanamravar"),
     ("நாய்", "தீயவர்"), ("naai", "theeyavar"),
     ("பன்னி", "தீயவர்"), ("panni", "theeyavar"),
     ("loosu", "theriyadhavar"), ("porukki", "kettavar"),
     ("kirukku", "pizhhaiyaanavar")]
  else if lang = "te" then strPairs
    [("పూకు", "చెడ్డది"), ("pooku", "cheddadi"),
     ("లండ", "చెడ్డది"), ("land", "cheddadi"),
     ("బోడు", "చెడ్డ వ్యక్తి"), ("bodu", "chedda vyakthi"),
     ("కూతురు", "చెడ్డది"), ("kothuru", "cheddadi"),
     ("పూరి", "చెడ్డది"), ("poori", "cheddadi"),
     ("lanjakoduku", "chedda vyakthi"),
     ("మూర్ఖుడు", "తెలియని వ్యక్తి"), ("moorkhhudu", "teliyani vyakthi"),
     ("వెధవ", "అనుభవం లేని వారు"), ("vedava", "anubhavam leni vaaru"),
     ("గాడిదేడు", "మూర్ఖుడు"), ("gadidhedu", "moorkhhudu"),
     ("గోవు", "మూఢనంమైన వ్యక్తి"), ("govu", "mudanamaina vyakthi"),
     ("కుక్క", "తప్పుడు వ్యక్తి"), ("kukka", "thappudu vyakthi"),
     ("పంది", "మూఢనంమైన వ్యక్తి"), ("pandi", "mudanamaina vyakthi"),
     ("ద్రోహి", "తప్పు మనసు ఉన్న వ్యక్తి"), ("drohi", "thappu manasu unna vyakthi"),
     ("gadu", "chedda vyakthi")]
  else []

/-! ## Script detection (safety_filter.py lines 262-274) -/

/-- Characters of the Devanagari Unicode block. -/
def isDevanagari (c : Char) : Bool := decide ('ऀ' ≤ c ∧ c ≤ 'ॿ')

/-- Characters of the Tamil Unicode block. -/
def isTamil (c : Char) : Bool := decide ('஀' ≤ c ∧ c ≤ '௿')

/-- Characters of the Telugu Unicode block. -/
def isTelugu (c : Char) : Bool := decide ('ఀ' ≤ c ∧ c ≤ '౿')

/-- SafetyFilter.detect_language: count code points per script block and
return the first language, in the order hi, ta, te, whose count is
positive; default en. -/
def detectLanguage (text : Str) : String :=
  let devanagari := text.countP isDevanagari
  let tamil := text.countP isTamil
  let telugu := text.countP isTelugu
  if devanagari > 0 then "hi"
  else if tamil > 0 then "ta"
  else if telugu > 0 then "te"
  else "en"

/-! ## Engine state and construction -/

/-- The configuration a SafetyFilter instance carries (safety_filter.py
__init__; the wordlists are process constants and stay module level
here). -/
structure SafetyFilter where
  language : String
  autoDetect : Bool
deriving DecidableEq

/-- SafetyFilter.__init__ (safety_filter.py lines 73-105): raises
ValueError when the language is unsupported, modelled as Except. -/
def mkSafetyFilter (language : String) (autoDetect : Bool) :
    Except String SafetyFilter :=
  if language ∈ supportedLanguages then Except.ok ⟨language, autoDetect⟩
  else Except.error "Language not supported"

/-- The configuration a SafetyLayer instance of safety_layer_text.py
carries. -/
structure SafetyLayer where
  language : String
deriving DecidableEq

/-- SafetyLayer.__init__ (safety_layer_text.py lines 30-49): stores the
requested language, builds the demo dictionaries, and appends custom
words only when the language is a known key.  It performs no validation
and raises nothing, so construction always succeeds. -/
def mkSafetyLayer (language : String) : Except String SafetyLayer :=
  Except.ok ⟨language⟩

/-- FilterResult (safety_filter.py lines 44-51).  The replacements dict
is an association list whose keys are provably distinct. -/
structure FilterResult where
  originalText : Str
  cleanedText : Str
  profaneWords : List Str
  replacements : List (Str × Str)
  detectedLanguage : String
deriving DecidableEq

/-! ## Synonym lookup (safety_filter.py lines 344-348) -/

/-- Python or on optional strings: None and the empty string are falsy. -/
def pyOrStr (a b : Option Str) : Option Str :=
  match a with
  | some s => if s = [] then b else some s
  | none => b

/-- SafetyFilter._get_synonym: rep = synonyms.get(word.lower()) or
synonyms.get(word); return rep if rep else word. -/
def getSynonym (lang : String) (w : Str) : Str :=
  let syns := synonymsFor lang
  match pyOrStr (lookupPairs syns (lowerStr w)) (lookupPairs syns w) with
  | some s => if s = [] then w else s
  | none => w

/-- The replacement filter_detailed records for a found word under the
synonym policy (safety_filter.py lines 327-330): the synonym when one
exists, otherwise a run of asterisks of the word's code-point length. -/
def synRep (lang : String) (w : Str) : Str :=
  let rep := getSynonym lang w
  if rep = w then List.replicate w.length '*' else rep

/-! ## Word-boundary substitution (safety_filter.py lines 350-354)

The regex pattern is backslash-b, the escaped word, backslash-b, compiled
with IGNORECASE.  A boundary sits between a word character and a
non-word character (string ends count as non-word). -/

/-- Word characters for the boundary test.  Python's regex counts Unicode
alphanumerics and the underscore; beyond ASCII we enumerate the letter and
digit ranges of the three Indic blocks the program handles (combining
marks and punctuation of those blocks are not word characters). -/
def isWordChar (c : Char) : Bool :=
  c.isAlphanum || c = '_'
  || decide ('ऄ' ≤ c ∧ c ≤ 'ह') || c = 'ऽ' || c = 'ॐ'
  || decide ('क़' ≤ c ∧ c ≤ 'ॡ') || decide ('०' ≤ c ∧ c ≤ '९')
  || decide ('ॱ' ≤ c ∧ c ≤ 'ॿ')
  || decide ('அ' ≤ c ∧ c ≤ 'ஹ') || c = 'ௐ'
  || decide ('௦' ≤ c ∧ c ≤ '௯')
  || decide ('అ' ≤ c ∧ c ≤ 'హ') || c = 'ఽ'
  || decide ('ౘ' ≤ c ∧ c ≤ 'ౚ') || decide ('ౠ' ≤ c ∧ c ≤ 'ౡ')
  || decide ('౦' ≤ c ∧ c ≤ '౯')

/-- Word-character status of an optional character; out of the string
counts as non-word. -/
def wordAt : Option Char → Bool
  | none => false
  | some c => isWordChar c

/-- A regex word boundary sits where word-character status changes. -/
def isBoundary (a b : Option Char) : Bool := wordAt a != wordAt b

/-- Case-insensitive match of pat against the front of the text; returns
the consumed text portion (original casing) and the rest. -/
def matchFront : Str → Str → Option (Str × Str)
  | [], rest => some ([], rest)
  | _ :: _, [] => none
  | p :: ps, t :: ts =>
    if p.toLower == t.toLower then
      match matchFront ps ts with
      | some (m, r) => some (t :: m, r)
      | none => none
    else none

/-- Attempt the boundary-anchored, case-insensitive match of pat at the
current position; prev is the character just before the position. -/
def tryMatch (pat : Str) (prev : Option Char) (o : Str) : Option (Str × Str) :=
  if pat.isEmpty then none
  else
    match matchFront pat o with
    | some (m, after) =>
      if isBoundary prev o.head? && isBoundary m.getLast? after.head? then
        some (m, after)
      else none
    | none => none

/-- Left-to-right scan of re.sub: at each position substitute the
boundary-anchored match (the replacement is allowed to depend on the
matched text) or copy one character.  Fuel is the length of the scanned
string, which each step decreases. -/
def substAux (pat : Str) (rep : Str → Str) : Nat → Option Char → Str → Str
  | 0, _, o => o
  | _ + 1, _, [] => []
  | fuel + 1, prev, c :: os =>
    match tryMatch pat prev (c :: os) with
    | some (m, after) => rep m ++ substAux pat rep fuel m.getLast? after
    | none => c :: substAux pat rep fuel (some c) os

/-- SafetyFilter._replace_word: every boundary-anchored case-insensitive
occurrence of word is replaced by the fixed replacement string.  (The
lexicon contains no empty term; an empty pattern is left as the identity.) -/
def replaceWord (text word replacement : Str) : Str :=
  if word.isEmpty then text
  else substAux word (fun _ => replacement) text.length none text

/-! ## filter_detailed (safety_filter.py lines 290-342) -/

/-- The language a call resolves to: the detector's answer in auto-detect
mode, the configured language otherwise (safety_filter.py line 309). -/
def resolvedLang (st : SafetyFilter) (text : Str) : String :=
  if st.autoDetect then detectLanguage text else st.language

/-- The union of both wordlists for a language (safety_filter.py lines
312-314).  Python iterates a set here, whose order is unspecified; the
embedding fixes the source listing order, severe terms first. -/
def allWords (lang : String) : List Str :=
  (highlyAbusive lang ++ racialSlurs lang).dedup

/-- The found list (safety_filter.py lines 316-320): every lexicon term
that occurs case-insensitively as a substring of the text. -/
def foundWords (lang : String) (text : Str) : List Str :=
  (allWords lang).filter (fun w => inStr (lowerStr w) (lowerStr text))

/-- SafetyFilter.filter_detailed.  Empty input short-circuits; otherwise
the found terms are substituted one after another over the evolving text.
With useSynonyms false the code would additionally call the external
better-profanity censor when that library is installed; the embedding
takes the guarded-import configuration in which it is absent. -/
def filterDetailed (st : SafetyFilter) (text : Str) (useSynonyms : Bool) :
    FilterResult :=
  if text = [] then ⟨text, text, [], [], st.language⟩
  else if useSynonyms then
    ⟨text,
     (foundWords (resolvedLang st text) text).foldl
       (fun acc w => replaceWord acc w (synRep (resolvedLang st text) w)) text,
     (foundWords (resolvedLang st text) text).dedup,
     (foundWords (resolvedLang st text) text).map
       (fun w => (w, synRep (resolvedLang st text) w)),
     resolvedLang st text⟩
  else
    ⟨text,
     (foundWords (resolvedLang st text) text).foldl
       (fun acc w => replaceWord acc w (List.replicate w.length '*')) text,
     (foundWords (resolvedLang st text) text).dedup,
     (foundWords (resolvedLang st text) text).map
       (fun w => (w, List.replicate w.length '*')),
     resolvedLang st text⟩

/-! ## Specification-side substitution predicate (for claim C1)

Formalisation of the spec sentence: cleaned_text equals original_text
with every occurrence of every matched term substituted per policy, and
non-matched text byte-for-byte unchanged.  The walk consumes the original
and the cleaned text together: wherever some matched term has a
boundary-anchored, case-insensitive occurrence, the term's recorded
replacement must appear in the cleaned text; elsewhere one unchanged
character is consumed from both. -/

/-- One step of the specification walk over (original, cleaned); pairs
maps each matched term to its recorded replacement.  Fuel is the length
of the original text, which each step decreases. -/
def specWalk (pairs : List (Str × Str)) :
    Nat → Option Char → Str → Str → Bool
  | 0, _, o, cl => o.isEmpty && cl.isEmpty
  | _ + 1, _, [], cl => cl.isEmpty
  | fuel + 1, prev, c :: os, cl =>
    let hits := pairs.filterMap (fun p =>
      match tryMatch p.1 prev (c :: os) with
      | some ma => some (ma.1, ma.2, p.2)
      | none => none)
    if hits.isEmpty then
      match cl with
      | [] => false
      | d :: cls => c == d && specWalk pairs fuel (some c) os cls
    else
      hits.any (fun h =>
        h.2.2.isPrefixOf cl &&
        specWalk pairs fuel h.1.getLast? h.2.1 (cl.drop h.2.2.length))

/-- Modelled from the spec's words, not from the code: cleaned is
original with every boundary-anchored occurrence of a matched term
replaced by that term's recorded replacement and all other text copied
unchanged. -/
def substitutedPerPolicySpec (pairs : List (Str × Str))
    (original cleaned : Str) : Bool :=
  specWalk pairs original.length none original cleaned

/-- ASCII whitespace, as Python str.isspace recognises it. -/
def pyIsSpace (c : Char) : Bool :=
  c == ' ' || c == '\t' || c == '\n' || c == '\r' || c == '\x0b' || c == '\x0c'

/-! ## Basic lemmas about the embedded string operations -/

lemma isPrefixOf_append_self : ∀ (l r : Str), l.isPrefixOf (l ++ r) = true
  | [], _ => by simp [List.isPrefixOf]
  | a :: l, r => by
    simp [List.isPrefixOf, isPrefixOf_append_self l r]

lemma isPrefixOf_mem : ∀ (l₂ l₁ : Str), l₁.isPrefixOf l₂ = true →
    ∀ a ∈ l₁, a ∈ l₂
  | _, [], _, _, ha => absurd ha (List.not_mem_nil _)
  | [], _ :: _, h, _, _ => by simp [List.isPrefixOf] at h
  | c :: cs, b :: bs, h, a, ha => by
    simp only [List.isPrefixOf, Bool.and_eq_true, beq_iff_eq] at h
    rcases List.mem_cons.mp ha with rfl | ha
    · exact h.1 ▸ List.mem_cons_self _ _
    · exact List.mem_cons_of_mem _ (isPrefixOf_mem cs bs h.2 a ha)

lemma inStr_mem : ∀ (hay pat : Str), inStr pat hay = true → ∀ a ∈ pat, a ∈ hay
  | [], pat, h, a, ha => by
    cases pat with
    | nil => exact absurd ha (List.not_mem_nil _)
    | cons p ps => simp [inStr, List.isPrefixOf] at h
  | c :: t, pat, h, a, ha => by
    simp only [inStr, Bool.or_eq_true] at h
    rcases h with h | h
    · exact isPrefixOf_mem (c :: t) pat h a ha
    · exact List.mem_cons_of_mem _ (inStr_mem t pat h a ha)

lemma matchFront_eq : ∀ (pat o m r : Str), matchFront pat o = some (m, r) →
    m ++ r = o ∧ m.length = pat.length
  | [], o, m, r, h => by
    simp only [matchFront, Option.some.injEq, Prod.mk.injEq] at h
    simp [← h.1, ← h.2]
  | _ :: _, [], _, _, h => by simp [matchFront] at h
  | p :: ps, t :: ts, m, r, h => by
    simp only [matchFront] at h
    split at h
    · split at h
      · next m' r' hrec =>
        simp only [Option.some.injEq, Prod.mk.injEq] at h
        obtain ⟨he, hl⟩ := matchFront_eq ps ts m' r' hrec
        obtain ⟨h1, h2⟩ := h
        subst h2
        rw [← h1]
        constructor
        · simp [he]
        · simp [hl]
      · exact absurd h (by simp)
    · exact absurd h (by simp)

lemma tryMatch_eq (pat : Str) (prev : Option Char) (o m after : Str)
    (h : tryMatch pat prev o = some (m, after)) : m ++ after = o ∧ m ≠ [] := by
  unfold tryMatch at h
  split at h
  · exact absurd h (by simp)
  · next hne =>
    split at h
    · next m' after' hmf =>
      split at h
      · simp only [Option.some.injEq, Prod.mk.injEq] at h
        obtain ⟨h1, h2⟩ := h
        subst h1
        subst h2
        obtain ⟨he, hl⟩ := matchFront_eq pat o m' after' hmf
        refine ⟨he, ?_⟩
        intro hm
        rw [hm] at hl
        have hp : pat = [] := List.length_eq_zero.mp hl.symm
        rw [hp] at hne
        exact hne rfl
      · exact absurd h (by simp)
    · exact absurd h (by simp)

lemma foundWords_nodup (lang : String) (text : Str) :
    (foundWords lang text).Nodup :=
  (List.nodup_dedup _).filter _

/-- Over a single matched term, the substitution scan produces exactly a
text accepted by the specification walk: wherever the boundary-anchored
match fires, the replacement is inserted; elsewhere characters are copied
unchanged. -/
lemma specWalk_substAux (pat rep : Str) :
    ∀ (fuel : Nat) (prev : Option Char) (o : Str), o.length ≤ fuel →
      specWalk [(pat, rep)] fuel prev o
        (substAux pat (fun _ => rep) fuel prev o) = true := by
  intro fuel
  induction fuel with
  | zero =>
    intro prev o ho
    have h0 : o = [] := List.length_eq_zero.mp (Nat.le_zero.mp ho)
    subst h0
    simp [specWalk, substAux]
  | succ n ih =>
    intro prev o ho
    cases o with
    | nil => simp [specWalk, substAux]
    | cons c os =>
      cases h : tryMatch pat prev (c :: os) with
      | none =>
        simp only [substAux, h, specWalk, List.filterMap_cons, h,
          List.filterMap_nil, List.isEmpty_nil, if_true, beq_self_eq_true,
          Bool.true_and]
        exact ih (some c) os (by simpa using Nat.le_of_succ_le_succ ho)
      | some ma =>
        obtain ⟨m, after⟩ := ma
        obtain ⟨hsp, hm⟩ := tryMatch_eq pat prev (c :: os) m after h
        have hlen : after.length ≤ n := by
          have h1 : m.length + after.length = os.length + 1 := by
            have := congrArg List.length hsp
            simpa using this
          have h2 : 1 ≤ m.length := by
            cases m with
            | nil => exact absurd rfl hm
            | cons _ _ => simp
          have ho' : os.length + 1 ≤ n + 1 := by simpa using ho
          omega
        simp only [substAux, h, specWalk, List.filterMap_cons,
          List.filterMap_nil, List.isEmpty_cons, if_false, List.any_cons,
          List.any_nil, Bool.or_false]
        have hdrop : (rep ++ substAux pat (fun _ => rep) n m.getLast? after).drop
            rep.length = substAux pat (fun _ => rep) n m.getLast? after :=
          List.drop_left rep _
        rw [isPrefixOf_append_self, hdrop, ih m.getLast? after hlen]
        rfl

/-- Every call echoes its input text in the result record. -/
lemma filterDetailed_originalText (st : SafetyFilter) (text : Str)
    (useSyn : Bool) : (filterDetailed st text useSyn).originalText = text := by
  unfold filterDetailed
  split
  · rfl
  · split <;> rfl

/-- The script detector only ever answers one of the four supported
languages. -/
lemma detectLanguage_mem (text : Str) :
    detectLanguage text ∈ supportedLanguages := by
  simp only [detectLanguage]
  split_ifs <;> decide

/-- For an engine whose configured language is supported, the resolved
language is supported too. -/
lemma resolvedLang_mem (st : SafetyFilter) (text : Str)
    (h : st.language ∈ supportedLanguages) :
    resolvedLang st text ∈ supportedLanguages := by
  unfold resolvedLang
  split
  · exact detectLanguage_mem text
  · exact h

/-- Inversion of the constructor: a successful construction returns the
requested configuration and certifies the language supported. -/
lemma mkSafetyFilter_ok (lang : String) (ad : Bool) (st : SafetyFilter)
    (h : mkSafetyFilter lang ad = Except.ok st) :
    st.language = lang ∧ st.autoDetect = ad ∧ lang ∈ supportedLanguages := by
  unfold mkSafetyFilter at h
  split at h
  · next hmem =>
    simp only [Except.ok.injEq] at h
    subst h
    exact ⟨rfl, rfl, hmem⟩
  · exact absurd h (by simp)

/-- Association lookup over the graph of a function on a duplicate-free
list returns that function's value. -/
lemma lookup_map_self (l : List Str) (f : Str → Str) (w : Str)
    (hnd : l.Nodup) (hw : w ∈ l) :
    lookupPairs (l.map (fun x => (x, f x))) w = some (f w) := by
  induction l with
  | nil => exact absurd hw (List.not_mem_nil _)
  | cons a t ih =>
    by_cases haw : a = w
    · subst haw
      simp [lookupPairs, List.find?]
    · have hwt : w ∈ t := by
        rcases List.mem_cons.mp hw with rfl | hwt
        · exact absurd rfl haw
        · exact hwt
      have hbeq : (a == w) = false := by
        simp [haw]
      have := ih (List.Nodup.of_cons hnd) hwt
      simpa [lookupPairs, List.find?, hbeq] using this

/-- The empty string is not a lexicon term. -/
lemma nil_not_highlyAbusive (lang : String) :
    ([] : Str) ∉ highlyAbusive lang := by
  unfold highlyAbusive
  split_ifs <;> decide

/-- The empty string is not a derogatory lexicon term either. -/
lemma nil_not_racialSlurs (lang : String) :
    ([] : Str) ∉ racialSlurs lang := by
  unfold racialSlurs
  split_ifs <;> decide

/-- Every lexicon term of a supported language keeps a non-whitespace
character after lowercasing. -/
lemma allWords_has_nonspace :
    ∀ lang ∈ supportedLanguages,
      (allWords lang).all
        (fun w => (lowerStr w).any (fun c => !pyIsSpace c)) = true := by
  decide

/-- Lowercasing fixes whitespace characters. -/
lemma space_toLower (c : Char) (h : pyIsSpace c = true) : c.toLower = c := by
  simp only [pyIsSpace, Bool.or_eq_true, beq_iff_eq] at h
  rcases h with ((((rfl | rfl) | rfl) | rfl) | rfl) | rfl <;> decide

/-! ## Claim theorems -/

/-- Claim C1, amended: for a non-empty input on which exactly one term is
matched, cleaned_text is original_text with every boundary-anchored
occurrence of that term substituted per policy and all other text
byte-for-byte unchanged.  (With several matched terms the substitutions
compose sequentially; see the counterexample.) -/
theorem c1_single_term_substitution (st : SafetyFilter) (text w : Str)
    (hw : (filterDetailed st text true).profaneWords = [w]) (hne : w ≠ []) :
    substitutedPerPolicySpec (filterDetailed st text true).replacements text
      (filterDetailed st text true).cleanedText = true := by
  by_cases ht : text = []
  · subst ht
    simp [filterDetailed] at hw
  · have hnd := foundWords_nodup (resolvedLang st text) text
    have hpw : (filterDetailed st text true).profaneWords
        = (foundWords (resolvedLang st text) text).dedup := by
      simp [filterDetailed, ht]
    have hfound : foundWords (resolvedLang st text) text = [w] := by
      rw [List.dedup_eq_self.mpr hnd] at hpw
      rw [← hpw, hw]
    have hrep : (filterDetailed st text true).replacements
        = [(w, synRep (resolvedLang st text) w)] := by
      simp [filterDetailed, ht, hfound]
    have hcl : (filterDetailed st text true).cleanedText
        = replaceWord text w (synRep (resolvedLang st text) w) := by
      simp [filterDetailed, ht, hfound]
    rw [hrep, hcl]
    unfold substitutedPerPolicySpec replaceWord
    have hie : w.isEmpty = false := by
      cases w with
      | nil => exact absurd rfl hne
      | cons _ _ => rfl
    rw [hie]
    simp only [Bool.false_eq_true, if_false]
    exact specWalk_substAux w (synRep (resolvedLang st text) w) text.length
      none text (le_refl _)

/-- Witness for claim C1's amended theorem: on the single-match input
"you ass" the produced cleaned text satisfies the per-policy substitution
predicate. -/
theorem c1_witness :
    substitutedPerPolicySpec
      (filterDetailed ⟨"en", false⟩ "you ass".data true).replacements
      "you ass".data
      (filterDetailed ⟨"en", false⟩ "you ass".data true).cleanedText = true :=
  c1_single_term_substitution ⟨"en", false⟩ "you ass".data "ass".data
    (by decide) (by decide)

/-- Counterexample for claim C1 as stated: on the non-empty input
"ass fool" the engine yields "naive person naive person" - the
replacement text recorded for "ass" (namely "fool") was itself rewritten
by the later substitution - so cleaned_text is not original_text with
each occurrence of each matched term substituted per policy. -/
theorem c1_counterexample :
    "ass fool".data ≠ ([] : Str) ∧
    (filterDetailed ⟨"en", false⟩ "ass fool".data true).cleanedText
      = "naive person naive person".data ∧
    substitutedPerPolicySpec
      (filterDetailed ⟨"en", false⟩ "ass fool".data true).replacements
      "ass fool".data
      (filterDetailed ⟨"en", false⟩ "ass fool".data true).cleanedText
      = false := by
  refine ⟨by decide, by decide, by decide⟩

/-- Claim C2: substitution respects word boundaries - "grasshopper" is
left unchanged although the lexicon contains "ass", while the standalone
token in "you ass" is replaced. -/
theorem c2_boundary_correctness :
    "ass".data ∈ highlyAbusive "en" ∧
    (filterDetailed ⟨"en", false⟩ "grasshopper".data true).cleanedText
      = "grasshopper".data ∧
    (filterDetailed ⟨"en", false⟩ "you ass".data true).cleanedText
      = "you fool".data := by
  refine ⟨by decide, by decide, by decide⟩

/-- Claim C10: filtering is not idempotent - the synonym of "ass" is
"fool", itself a lexicon term, so filtering "you ass" yields "you fool",
and filtering that output again changes it and reports a non-empty match
set. -/
theorem c10_not_idempotent :
    getSynonym "en" "ass".data = "fool".data ∧
    "fool".data ∈ racialSlurs "en" ∧
    (filterDetailed ⟨"en", false⟩ "you ass".data true).cleanedText
      = "you fool".data ∧
    (filterDetailed ⟨"en", false⟩ "you fool".data true).cleanedText
      ≠ "you fool".data ∧
    (filterDetailed ⟨"en", false⟩ "you fool".data true).profaneWords ≠ [] := by
  refine ⟨by decide, by decide, by decide, by decide, by decide⟩

/-- Claim C3: for every input and either policy mode, the matched-terms
list is duplicate-free and is exactly the key list of the replacements
mapping. -/
theorem c3_matched_terms_keyset (st : SafetyFilter) (text : Str)
    (useSyn : Bool) :
    (filterDetailed st text useSyn).profaneWords.Nodup ∧
    (filterDetailed st text useSyn).replacements.map Prod.fst
      = (filterDetailed st text useSyn).profaneWords := by
  unfold filterDetailed
  split
  · simp
  · split
    · refine ⟨List.nodup_dedup _, ?_⟩
      rw [List.dedup_eq_self.mpr (foundWords_nodup _ _), List.map_map]
      rw [show (Prod.fst ∘ fun w : Str =>
        (w, synRep (resolvedLang st text) w)) = id from rfl]
      exact List.map_id _
    · refine ⟨List.nodup_dedup _, ?_⟩
      rw [List.dedup_eq_self.mpr (foundWords_nodup _ _), List.map_map]
      rw [show (Prod.fst ∘ fun w : Str =>
        (w, List.replicate w.length '*')) = id from rfl]
      exact List.map_id _

/-- Claim C5: script detection answers the first language in the fixed
priority order hi, ta, te whose block has at least one code point in the
text - existence, never count magnitude, decides - and defaults to en. -/
theorem c5_script_priority (text : Str) :
    detectLanguage text =
      if text.any isDevanagari then "hi"
      else if text.any isTamil then "ta"
      else if text.any isTelugu then "te"
      else "en" := by
  simp only [detectLanguage, gt_iff_lt, List.countP_pos_iff, List.any_eq_true]

/-- Claim C6, amended: the SafetyFilter constructor succeeds exactly for
the supported languages, and every filter call on a validly constructed
engine returns a result (echoing its input and carrying a supported
resolved language); the SafetyLayer constructor of safety_layer_text.py
validates nothing and succeeds for every language code. -/
theorem c6_construction_gate (lang : String) (ad : Bool) :
    ((mkSafetyFilter lang ad).isOk = true ↔ lang ∈ supportedLanguages) ∧
    (mkSafetyLayer lang).isOk = true ∧
    ∀ st, mkSafetyFilter lang ad = Except.ok st →
      ∀ (text : Str) (useSyn : Bool),
        (filterDetailed st text useSyn).originalText = text ∧
        (filterDetailed st text useSyn).detectedLanguage
          ∈ supportedLanguages := by
  refine ⟨?_, rfl, ?_⟩
  · unfold mkSafetyFilter
    split
    · next hmem => simp [Except.isOk, Except.toBool, hmem]
    · next hmem => simp [Except.isOk, Except.toBool, hmem]
  · intro st hok text useSyn
    obtain ⟨hla, had, hmem⟩ := mkSafetyFilter_ok lang ad st hok
    refine ⟨filterDetailed_originalText st text useSyn, ?_⟩
    have hstm : st.language ∈ supportedLanguages := hla ▸ hmem
    unfold filterDetailed
    split
    · exact hstm
    · split <;> exact resolvedLang_mem st text hstm

/-- Witness for claim C6 at the concrete language en. -/
theorem c6_witness :
    (mkSafetyFilter "en" false).isOk = true ∧
    (filterDetailed ⟨"en", false⟩ "hello".data true).originalText
      = "hello".data := by
  refine ⟨((c6_construction_gate "en" false).1).mpr (by decide), ?_⟩
  exact ((c6_construction_gate "en" false).2.2 ⟨"en", false⟩ rfl
    "hello".data true).1

/-- Counterexample for claim C6 as stated: the SafetyLayer variant
performs no language validation, so constructing it with the unsupported
language code "fr" succeeds instead of failing with a configuration
error. -/
theorem c6_counterexample :
    (mkSafetyLayer "fr").isOk = true ∧ "fr" ∉ supportedLanguages := by
  refine ⟨rfl, by decide⟩

/-- Claim C7: a matched term with no synonym-table entry for the
resolved language (neither under its lowercased nor its exact form) is
recorded as replaced by exactly one asterisk per code point of the
term. -/
theorem c7_mask_fallback (st : SafetyFilter) (text w : Str)
    (hw : w ∈ (filterDetailed st text true).profaneWords)
    (h1 : lookupPairs (synonymsFor (resolvedLang st text)) (lowerStr w) = none)
    (h2 : lookupPairs (synonymsFor (resolvedLang st text)) w = none) :
    lookupPairs (filterDetailed st text true).replacements w
      = some (List.replicate w.length '*') := by
  by_cases ht : text = []
  · subst ht
    simp [filterDetailed] at hw
  · have hsyn : getSynonym (resolvedLang st text) w = w := by
      simp only [getSynonym]
      rw [h1, h2]
      rfl
    have hrep : synRep (resolvedLang st text) w
        = List.replicate w.length '*' := by
      unfold synRep
      rw [hsyn]
      simp
    have hmemf : w ∈ foundWords (resolvedLang st text) text := by
      have : (filterDetailed st text true).profaneWords
          = (foundWords (resolvedLang st text) text).dedup := by
        simp [filterDetailed, ht]
      rw [this] at hw
      exact List.mem_dedup.mp hw
    have hrepl : (filterDetailed st text true).replacements
        = (foundWords (resolvedLang st text) text).map
          (fun x => (x, synRep (resolvedLang st text) x)) := by
      simp [filterDetailed, ht]
    rw [hrepl, lookup_map_self _ _ _ (foundWords_nodup _ _) hmemf, hrep]

/-- Witness for claim C7: the en term "cock" has no synonym and is
recorded as "****". -/
theorem c7_witness :
    lookupPairs (filterDetailed ⟨"en", false⟩ "you cock".data true).replacements
      "cock".data = some (List.replicate "cock".data.length '*') :=
  c7_mask_fallback ⟨"en", false⟩ "you cock".data "cock".data
    (by decide) (by decide) (by decide)

/-- Claim C8: detection is substring-based and exhaustive - a term of
either lexicon set of the resolved language is reported iff its
case-folded form occurs as a substring of the case-folded text, with no
boundary requirement at detection time. -/
theorem c8_substring_detection (st : SafetyFilter) (text w : Str)
    (hw : w ∈ highlyAbusive (resolvedLang st text)
        ∨ w ∈ racialSlurs (resolvedLang st text)) :
    (w ∈ (filterDetailed st text true).profaneWords ↔
      inStr (lowerStr w) (lowerStr text) = true) := by
  have hne : w ≠ [] := by
    rcases hw with h | h
    · exact fun e => nil_not_highlyAbusive _ (e ▸ h)
    · exact fun e => nil_not_racialSlurs _ (e ▸ h)
  have hmem : w ∈ allWords (resolvedLang st text) :=
    List.mem_dedup.mpr (List.mem_append.mpr hw)
  by_cases ht : text = []
  · subst ht
    simp only [filterDetailed, if_pos rfl]
    constructor
    · intro hfalse
      exact absurd hfalse (List.not_mem_nil _)
    · intro hin
      exfalso
      cases hwc : w with
      | nil => exact hne hwc
      | cons a t =>
        rw [hwc] at hin
        simp [lowerStr, inStr, List.isPrefixOf] at hin
  · have : (filterDetailed st text true).profaneWords
        = (foundWords (resolvedLang st text) text).dedup := by
      simp [filterDetailed, ht]
    rw [this, List.mem_dedup]
    unfold foundWords
    rw [List.mem_filter]
    constructor
    · exact fun h => h.2
    · exact fun h => ⟨hmem, h⟩

/-- Witness for claim C8: "ass" occurs inside "grasshopper" and is
therefore reported, boundary or not. -/
theorem c8_witness :
    ("ass".data ∈ (filterDetailed ⟨"en", false⟩ "grasshopper".data
        true).profaneWords ↔
      inStr (lowerStr "ass".data) (lowerStr "grasshopper".data) = true) :=
  c8_substring_detection ⟨"en", false⟩ "grasshopper".data "ass".data
    (Or.inl (by decide))

/-- Claim C9: on empty or whitespace-only input every filter call of a
validly constructed engine returns the text unchanged with an empty match
set and empty replacements, in either policy mode.  (The code
short-circuits only on the empty string; for whitespace-only text the
same result follows because no lexicon term is a substring of
whitespace.) -/
theorem c9_whitespace_noop (lang : String) (ad : Bool) (st : SafetyFilter)
    (text : Str) (useSyn : Bool)
    (hok : mkSafetyFilter lang ad = Except.ok st)
    (hsp : text.all pyIsSpace = true) :
    (filterDetailed st text useSyn).cleanedText = text ∧
    (filterDetailed st text useSyn).profaneWords = [] ∧
    (filterDetailed st text useSyn).replacements = [] := by
  by_cases ht : text = []
  · subst ht
    simp [filterDetailed]
  · obtain ⟨hla, had, hmem⟩ := mkSafetyFilter_ok lang ad st hok
    have hL : resolvedLang st text ∈ supportedLanguages :=
      resolvedLang_mem st text (hla ▸ hmem)
    have hf : foundWords (resolvedLang st text) text = [] := by
      unfold foundWords
      rw [List.filter_eq_nil_iff]
      intro w hwmem hpred
      have hnz := List.all_eq_true.mp
        (allWords_has_nonspace (resolvedLang st text) hL) w hwmem
      obtain ⟨c, hc, hcs⟩ := List.any_eq_true.mp hnz
      have hcin : c ∈ lowerStr text := inStr_mem _ _ hpred c hc
      obtain ⟨d, hd, hde⟩ := List.mem_map.mp hcin
      have hds : pyIsSpace d = true := List.all_eq_true.mp hsp d hd
      rw [← hde, space_toLower d hds] at hcs
      rw [hds] at hcs
      exact Bool.false_ne_true hcs
    unfold filterDetailed
    rw [if_neg ht]
    split <;> rw [hf] <;> exact ⟨rfl, rfl, rfl⟩

/-- Witness for claim C9 on a single-space input. -/
theorem c9_witness :
    (filterDetailed ⟨"en", false⟩ " ".data true).cleanedText = " ".data ∧
    (filterDetailed ⟨"en", false⟩ " ".data true).profaneWords = [] ∧
    (filterDetailed ⟨"en", false⟩ " ".data true).replacements = [] :=
  c9_whitespace_noop "en" false ⟨"en", false⟩ " ".data true rfl (by decide)

/-- Claim C4 (code bug): no importable engine reshapes case -
SafetyFilter inserts the stored synonym verbatim, so filtering STUPID,
Stupid and stupid each yields exactly "unwise", never "UNWISE" or
"Unwise".  The case-reshaping helper _match_case exists only in
text_safety_layer.py, whose _find_profane_words holds an unterminated
string literal, so that module fails to import and contributes no runtime
behaviour. -/
theorem c4_no_case_reshaping :
    (filterDetailed ⟨"en", false⟩ "STUPID".data true).cleanedText
      = "unwise".data ∧
    (filterDetailed ⟨"en", false⟩ "Stupid".data true).cleanedText
      = "unwise".data ∧
    (filterDetailed ⟨"en", false⟩ "stupid".data true).cleanedText
      = "unwise".data ∧
    (filterDetailed ⟨"en", false⟩ "STUPID".data true).cleanedText
      ≠ "UNWISE".data := by
  refine ⟨by decide, by decide, by decide, by decide⟩
